import Mathlib

/-!
Verification development for the lanca-io/rebalancer repository.

The TypeScript sources are shallowly embedded: monetary values (TS bigint)
become Int, JS Map / Record objects become association lists in insertion
order (JS Map iteration order is insertion order), and fallible reads become
Except values supplied as explicit parameters.  Fields of the source types
that no claim touches (log strings, timestamps, gas configuration) are
dropped; everything the discovery, parsing and allowance logic branches on
is kept with the source control flow intact.
-/

/-- Association-list lookup, the embedding of JS Map.get / Record indexing. -/
def mapGet {α : Type} : List (String × α) → String → Option α
  | [], _ => none
  | (k, v) :: t, key => if k == key then some v else mapGet t key

/-- Association-list update, the embedding of JS Map.set / Record assignment:
an existing key keeps its position, a new key is appended. -/
def mapSet {α : Type} : List (String × α) → String → α → List (String × α)
  | [], key, v => [(key, v)]
  | (k, w) :: t, key, v => if k == key then (key, v) :: t else (k, w) :: mapSet t key v

/-- Character-list version of "the second list is an initial segment of the first". -/
def charsStartWith : List Char → List Char → Bool
  | _, [] => true
  | [], _ :: _ => false
  | a :: as, b :: bs => a == b && charsStartWith as bs

/-- Character-list version of substring occurrence. -/
def charsInclude : List Char → List Char → Bool
  | [], sub => sub.isEmpty
  | a :: t, sub => charsStartWith (a :: t) sub || charsInclude t sub

/-- Embedding of the JS string method key.includes(sub). -/
def strIncludes (key sub : String) : Bool :=
  charsInclude key.data sub.data

namespace BalanceManager

/-- TokenBalance of src/src/managers/BalanceManager.ts: per-network native,
USDC and IOU balances. -/
structure TokenBalance where
  native : Int
  usdc : Int
  iou : Int
deriving DecidableEq

/-- BalanceManager.getBalance: plain map lookup. -/
def getBalance (balances : List (String × TokenBalance)) (networkName : String) :
    Option TokenBalance :=
  mapGet balances networkName

/-- BalanceManager.getTotalIouBalance: sum of iou over all tracked networks. -/
def getTotalIouBalance (balances : List (String × TokenBalance)) : Int :=
  balances.foldl (fun total e => total + e.2.iou) 0

/-- BalanceManager.hasNativeBalance: strictly-greater comparison when the
network is tracked, false otherwise. -/
def hasNativeBalance (balances : List (String × TokenBalance))
    (networkName : String) (minimumBalance : Int) : Bool :=
  match mapGet balances networkName with
  | some balance => balance.native > minimumBalance
  | none => false

/-- BalanceManager.hasUsdcBalance. -/
def hasUsdcBalance (balances : List (String × TokenBalance))
    (networkName : String) (minimumBalance : Int) : Bool :=
  match mapGet balances networkName with
  | some balance => balance.usdc > minimumBalance
  | none => false

/-- BalanceManager.hasIouBalance. -/
def hasIouBalance (balances : List (String × TokenBalance))
    (networkName : String) (minimumBalance : Int) : Bool :=
  match mapGet balances networkName with
  | some balance => balance.iou > minimumBalance
  | none => false

end BalanceManager

namespace Rebalancer

/-- PoolData of src/src/managers/Rebalancer.ts (the lastUpdated timestamp is
dropped: no decision logic reads it). -/
structure PoolData where
  deficit : Int
  surplus : Int
deriving DecidableEq

/-- The three values of the RebalanceOpportunity.type union. -/
inductive OpportunityType where
  | fillDeficit
  | bridgeIOU
  | redeemSurplus
deriving DecidableEq

/-- RebalanceOpportunity of Rebalancer.ts (the human-readable reason string
is dropped). -/
structure RebalanceOpportunity where
  type : OpportunityType
  fromNetwork : Option String
  toNetwork : String
  amount : Int
deriving DecidableEq

/-- The RebalancerConfig fields the decision logic reads. -/
structure RebalancerConfig where
  deficitThreshold : Int
  surplusThreshold : Int
  netTotalAllowance : Int
deriving DecidableEq

/-- The mutable Rebalancer state a discovery pass reads: the poolData map,
the BalanceManager balances snapshot, and the totalRedeemedUsdc counter. -/
structure RebalancerState where
  poolData : List (String × PoolData)
  balances : List (String × BalanceManager.TokenBalance)
  totalRedeemedUsdc : Int

/-- The net allowance computed inside shouldFillDeficit:
netTotalAllowance - (totalIOUAcrossChains - totalRedeemedUsdc). -/
def netAllowance (config : RebalancerConfig) (st : RebalancerState) : Int :=
  config.netTotalAllowance - (BalanceManager.getTotalIouBalance st.balances - st.totalRedeemedUsdc)

/-- Rebalancer.shouldFillDeficit, with the four early returns in source order:
deficit below threshold, missing or zero USDC balance, exhausted net
allowance, missing native gas. -/
def shouldFillDeficit (config : RebalancerConfig) (st : RebalancerState)
    (networkName : String) (data : PoolData) : Bool :=
  if data.deficit < config.deficitThreshold then false
  else
    match BalanceManager.getBalance st.balances networkName with
    | none => false
    | some balance =>
      if balance.usdc == 0 then false
      else if netAllowance config st ≤ 0 then false
      else if !BalanceManager.hasNativeBalance st.balances networkName 0 then false
      else true

/-- Rebalancer.shouldRedeemSurplus, with its three early returns. -/
def shouldRedeemSurplus (config : RebalancerConfig) (st : RebalancerState)
    (networkName : String) (data : PoolData) : Bool :=
  if data.surplus < config.surplusThreshold then false
  else
    match BalanceManager.getBalance st.balances networkName with
    | none => false
    | some balance =>
      if balance.iou == 0 then false
      else if !BalanceManager.hasNativeBalance st.balances networkName 0 then false
      else true

/-- Step 1 of checkRebalancingOpportunities: the fillDeficit loop over the
poolData map, emitting min(usdc, deficit) per qualifying network. -/
def fillDeficitOps (config : RebalancerConfig) (st : RebalancerState) :
    List RebalanceOpportunity :=
  st.poolData.flatMap fun e =>
    if shouldFillDeficit config st e.1 e.2 then
      match BalanceManager.getBalance st.balances e.1 with
      | some balance =>
        [{ type := .fillDeficit, fromNetwork := none, toNetwork := e.1,
           amount := if balance.usdc < e.2.deficit then balance.usdc else e.2.deficit }]
      | none => []
    else []

/-- One iteration of the best-surplus scan of
checkIOUBridgingOpportunities: update on a strictly larger surplus that
also meets the threshold, otherwise keep the accumulator. -/
def bestSurplusStep (config : RebalancerConfig) (acc : Option String × Int)
    (e : String × PoolData) : Option String × Int :=
  if e.2.surplus > acc.2 ∧ e.2.surplus ≥ config.surplusThreshold then
    (some e.1, e.2.surplus)
  else acc

/-- The best-surplus scan of checkIOUBridgingOpportunities: a fold over the
poolData map in iteration order starting from (null, 0).  Returns
(bestSurplusNetwork, highestSurplus). -/
def findBestSurplus (config : RebalancerConfig)
    (poolData : List (String × PoolData)) : Option String × Int :=
  poolData.foldl (bestSurplusStep config) (none, 0)

/-- Rebalancer.checkIOUBridgingOpportunities: bridge every IOU-holding
network with native gas to the single best-surplus network. -/
def checkIOUBridgingOpportunities (config : RebalancerConfig) (st : RebalancerState) :
    List RebalanceOpportunity :=
  let networksWithIOU := (st.balances.filter fun e => e.2.iou > 0).map fun e => (e.1, e.2.iou)
  if networksWithIOU.isEmpty then []
  else
    match findBestSurplus config st.poolData with
    | (none, _) => []
    | (some bestSurplusNetwork, highestSurplus) =>
      if highestSurplus == 0 then []
      else
        networksWithIOU.flatMap fun f =>
          if f.1 == bestSurplusNetwork then []
          else if !BalanceManager.hasNativeBalance st.balances f.1 0 then []
          else
            [{ type := .bridgeIOU, fromNetwork := some f.1,
               toNetwork := bestSurplusNetwork, amount := f.2 }]

/-- Step 3 of checkRebalancingOpportunities: the redeemSurplus loop, emitting
min(iou, surplus) per qualifying network. -/
def redeemSurplusOps (config : RebalancerConfig) (st : RebalancerState) :
    List RebalanceOpportunity :=
  st.poolData.flatMap fun e =>
    if shouldRedeemSurplus config st e.1 e.2 then
      match BalanceManager.getBalance st.balances e.1 with
      | some balance =>
        if balance.iou > 0 then
          [{ type := .redeemSurplus, fromNetwork := none, toNetwork := e.1,
             amount := if balance.iou < e.2.surplus then balance.iou else e.2.surplus }]
        else []
      | none => []
    else []

/-- Rebalancer.checkRebalancingOpportunities: the batch is built by pushing
the fillDeficit opportunities, then the bridge opportunities, then the
redeemSurplus opportunities, and is executed in exactly this list order. -/
def checkRebalancingOpportunities (config : RebalancerConfig) (st : RebalancerState) :
    List RebalanceOpportunity :=
  fillDeficitOps config st ++ checkIOUBridgingOpportunities config st
    ++ redeemSurplusOps config st

/-- The approve decision of Rebalancer.ensureAllowance: none when the current
allowance covers the requirement, otherwise one approve for
max(requiredAmount, minAllowance), written as in the source ternary. -/
def ensureAllowanceApprove (currentAllowance requiredAmount minAllowance : Int) :
    Option Int :=
  if currentAllowance ≥ requiredAmount then none
  else some (if requiredAmount > minAllowance then requiredAmount else minAllowance)

end Rebalancer

namespace BalanceManagerBase

/-- TokenBalance of the abstract BalanceManager base (src/unnamed/part_005):
a native balance plus a symbol-keyed token map. -/
structure TokenBalance where
  native : Int
  tokens : List (String × Int)
deriving DecidableEq

/-- TokenConfig of the base BalanceManager (decimals dropped: no decision
logic branches on them). -/
structure TokenConfig where
  symbol : String
  address : String
deriving DecidableEq

/-- Base BalanceManager.getBalance. -/
def getBalance (balances : List (String × TokenBalance)) (networkName : String) :
    Option TokenBalance :=
  mapGet balances networkName

/-- Base BalanceManager.getTokenBalance: balance?.tokens.get(symbol) || 0n. -/
def getTokenBalance (balances : List (String × TokenBalance))
    (networkName symbol : String) : Int :=
  match mapGet balances networkName with
  | some balance => (mapGet balance.tokens symbol).getD 0
  | none => 0

/-- Base BalanceManager.getTotalTokenBalance: sum over all networks. -/
def getTotalTokenBalance (balances : List (String × TokenBalance))
    (symbol : String) : Int :=
  balances.foldl (fun total e => total + (mapGet e.2.tokens symbol).getD 0) 0

/-- Base BalanceManager.hasNativeBalance. -/
def hasNativeBalance (balances : List (String × TokenBalance))
    (networkName : String) (minimumBalance : Int) : Bool :=
  match mapGet balances networkName with
  | some balance => balance.native > minimumBalance
  | none => false

/-- Base BalanceManager.hasTokenBalance. -/
def hasTokenBalance (balances : List (String × TokenBalance))
    (networkName symbol : String) (minimumBalance : Int) : Bool :=
  match mapGet balances networkName with
  | some balance => (mapGet balance.tokens symbol).getD 0 > minimumBalance
  | none => false

/-- ASCII lower-casing of one character, the effect of the JS
toLowerCase call on the addresses handled here. -/
def charToLower (c : Char) : Char :=
  if 65 ≤ c.toNat ∧ c.toNat ≤ 90 then Char.ofNat (c.toNat + 32) else c

/-- ASCII lower-casing of a string (structurally recursive so that concrete
evaluations reduce in the kernel). -/
def strToLower (s : String) : String :=
  String.mk (s.data.map charToLower)

/-- Base BalanceManager.getMinAllowance: the per-network, per-token-address
floor map (keys stored lower-cased), defaulting to 0 when the network or
the token has no entry. -/
def getMinAllowance (minAllowances : List (String × List (String × Int)))
    (networkName tokenAddress : String) : Int :=
  match mapGet minAllowances networkName with
  | none => 0
  | some networkMap => (mapGet networkMap (strToLower tokenAddress)).getD 0

/-- The approve decision of the base BalanceManager.ensureAllowance
(src/unnamed/part_005 lines 282-343): when the current allowance covers the
requirement it still raises to effectiveMinAmount = max(floor, required) if
the current allowance is below it; when the requirement is not covered it
approves max(required, floor).  Returns the approve value, or none. -/
def ensureAllowanceApprove (minAllowances : List (String × List (String × Int)))
    (networkName tokenAddress : String) (currentAllowance requiredAmount : Int) :
    Option Int :=
  let minAmount := getMinAllowance minAllowances networkName tokenAddress
  if currentAllowance ≥ requiredAmount then
    let effectiveMinAmount := if minAmount ≥ requiredAmount then minAmount else requiredAmount
    if currentAllowance ≥ effectiveMinAmount then none
    else some effectiveMinAmount
  else some (if requiredAmount > minAmount then requiredAmount else minAmount)

/-- Base BalanceManager.updateTokenBalances: per network with configured
tokens, each configured token is re-read; a read error stores 0 for that
token (both the inner fetchTokenBalance catch and the loop catch write 0n).
The read outcomes are supplied as a function from (network, token address). -/
def updateTokenBalances (balances : List (String × TokenBalance))
    (networks : List String) (tokenConfigs : String → List TokenConfig)
    (readToken : String → String → Except Unit Int) :
    List (String × TokenBalance) :=
  networks.foldl
    (fun bals networkName =>
      let configs := tokenConfigs networkName
      if configs.isEmpty then bals
      else
        let currentBalance := mapGet bals networkName
        let tokens0 := match currentBalance with
          | some b => b.tokens
          | none => []
        let tokens := configs.foldl
          (fun ts c =>
            match readToken networkName c.address with
            | .ok v => mapSet ts c.symbol v
            | .error _ => mapSet ts c.symbol 0)
          tokens0
        mapSet bals networkName
          { native := match currentBalance with
              | some b => b.native
              | none => 0,
            tokens := tokens })
    balances

/-- Base BalanceManager.updateNativeBalances: a failed getBalance read is
only logged and the entry is left untouched; a successful read replaces the
native field and keeps the token map. -/
def updateNativeBalances (balances : List (String × TokenBalance))
    (networks : List String) (readNative : String → Except Unit Int) :
    List (String × TokenBalance) :=
  networks.foldl
    (fun bals networkName =>
      match readNative networkName with
      | .error _ => bals
      | .ok nativeBalance =>
        let currentBalance := mapGet bals networkName
        mapSet bals networkName
          { native := nativeBalance,
            tokens := match currentBalance with
              | some b => b.tokens
              | none => [] })
    balances

end BalanceManagerBase

namespace DeploymentManager

/-- One parsed manifest line as handed to parseDeployments. -/
structure DeploymentEntry where
  key : String
  value : String
  networkName : String
deriving DecidableEq

/-- LancaDeployments of src/src/managers/DeploymentManager.ts. -/
structure LancaDeployments where
  pools : List (String × String)
  parentPool : String × String
  usdcTokens : List (String × String)
  iouTokens : List (String × String)
deriving DecidableEq

/-- One iteration of the pool-deployment loop of parseDeployments: a key
containing PARENT_POOL overwrites parentPool and sets the found flag, a key
containing CHILD_POOL inserts into pools, anything else is skipped. -/
def parsePoolStep (acc : LancaDeployments × Bool) (d : DeploymentEntry) :
    LancaDeployments × Bool :=
  if strIncludes d.key "PARENT_POOL" then
    ({ acc.1 with parentPool := (d.networkName, d.value) }, true)
  else if strIncludes d.key "CHILD_POOL" then
    ({ acc.1 with pools := mapSet acc.1.pools d.networkName d.value }, acc.2)
  else acc

/-- One iteration of the token-deployment loop of parseDeployments. -/
def parseTokenStep (deployments : LancaDeployments) (d : DeploymentEntry) :
    LancaDeployments :=
  if strIncludes d.key "USDC_" then
    { deployments with usdcTokens := mapSet deployments.usdcTokens d.networkName d.value }
  else if strIncludes d.key "IOU_" then
    { deployments with iouTokens := mapSet deployments.iouTokens d.networkName d.value }
  else deployments

/-- DeploymentManager.parseDeployments: the in-memory snapshot is mutated in
place, so the embedding returns the state as left by the method together
with a success flag.  pools, usdcTokens and iouTokens are reset first; the
pool entries are folded; if no parent pool was seen the method throws at
that point (flag false, state as mutated so far); otherwise the token
entries are folded and the flag is true. -/
def parseDeployments (old : LancaDeployments)
    (poolDeployments tokenDeployments : List DeploymentEntry) :
    LancaDeployments × Bool :=
  let reset : LancaDeployments :=
    { old with pools := [], usdcTokens := [], iouTokens := [] }
  let afterPools := poolDeployments.foldl parsePoolStep (reset, false)
  if afterPools.2 then (tokenDeployments.foldl parseTokenStep afterPools.1, true)
  else (afterPools.1, false)

/-- DeploymentManager.updateDeployments on the manifest path: the two
manifest fetches are joined; a fetch failure propagates before
parseDeployments runs, so the snapshot is untouched; a successful fetch
hands both entry lists to parseDeployments. -/
def updateDeployments (old : LancaDeployments)
    (fetched : Except Unit (List DeploymentEntry × List DeploymentEntry)) :
    LancaDeployments × Bool :=
  match fetched with
  | .error _ => (old, false)
  | .ok p => parseDeployments old p.1 p.2

/-- The last PARENT_POOL entry of a list, tracked with an explicit
accumulator to mirror the overwrite-in-order semantics of the pool loop. -/
def lastParentAux (acc : Option DeploymentEntry) :
    List DeploymentEntry → Option DeploymentEntry
  | [] => acc
  | e :: t => lastParentAux (if strIncludes e.key "PARENT_POOL" then some e else acc) t

/-- The last PARENT_POOL entry of a pool-deployment list, if any. -/
def lastParentEntry (l : List DeploymentEntry) : Option DeploymentEntry :=
  lastParentAux none l

end DeploymentManager

namespace LancaNetworkManager

/-- The fields of ConceroNetwork that updateActiveNetworks reads. -/
structure ConceroNetwork where
  name : String
  id : Int
deriving DecidableEq

/-- The whitelist/blacklist part of LancaNetworkManagerConfig; both lists
are optional in the source. -/
structure LancaNetworkManagerConfig where
  whitelistedNetworkIds : Option (List Int)
  blacklistedNetworkIds : Option (List Int)
deriving DecidableEq

/-- The filter predicate of LancaNetworkManager.updateActiveNetworks
(src/unnamed/part_003 lines 123-156), with the source control flow: no pool
deployment excludes; a present non-empty whitelist RETURNS whitelist
membership, skipping the blacklist check entirely; otherwise blacklist
membership excludes. -/
def keepNetwork (pools : List (String × String)) (config : LancaNetworkManagerConfig)
    (network : ConceroNetwork) : Bool :=
  match mapGet pools network.name with
  | none => false
  | some _ =>
    match config.whitelistedNetworkIds with
    | some whitelist =>
      if whitelist.length > 0 then whitelist.contains network.id
      else
        match config.blacklistedNetworkIds with
        | some blacklist => !blacklist.contains network.id
        | none => true
    | none =>
      match config.blacklistedNetworkIds with
      | some blacklist => !blacklist.contains network.id
      | none => true

/-- The filteredNetworks computation of updateActiveNetworks: the candidate
list filtered by keepNetwork.  On success this list becomes the active set. -/
def updateActiveNetworks (candidates : List ConceroNetwork)
    (pools : List (String × String)) (config : LancaNetworkManagerConfig) :
    List ConceroNetwork :=
  candidates.filter (keepNetwork pools config)

end LancaNetworkManager

namespace Rebalancer

/-- Every opportunity produced by the fillDeficit loop is a fillDeficit. -/
theorem fillDeficitOps_type {config : RebalancerConfig} {st : RebalancerState}
    {o : RebalanceOpportunity} (h : o ∈ fillDeficitOps config st) :
    o.type = OpportunityType.fillDeficit := by
  simp only [fillDeficitOps, List.mem_flatMap] at h
  obtain ⟨e, -, hmem⟩ := h
  split at hmem
  · split at hmem
    · rw [List.mem_singleton] at hmem
      subst hmem
      rfl
    · simp at hmem
  · simp at hmem

/-- Every opportunity produced by the bridging check is a bridgeIOU. -/
theorem checkIOUBridgingOpportunities_type {config : RebalancerConfig}
    {st : RebalancerState} {o : RebalanceOpportunity}
    (h : o ∈ checkIOUBridgingOpportunities config st) :
    o.type = OpportunityType.bridgeIOU := by
  simp only [checkIOUBridgingOpportunities] at h
  split at h
  · simp at h
  · split at h
    · simp at h
    · split at h
      · simp at h
      · rw [List.mem_flatMap] at h
        obtain ⟨f, -, hmem⟩ := h
        split at hmem
        · simp at hmem
        · split at hmem
          · simp at hmem
          · rw [List.mem_singleton] at hmem
            subst hmem
            rfl

/-- Every opportunity produced by the redeemSurplus loop is a redeemSurplus. -/
theorem redeemSurplusOps_type {config : RebalancerConfig} {st : RebalancerState}
    {o : RebalanceOpportunity} (h : o ∈ redeemSurplusOps config st) :
    o.type = OpportunityType.redeemSurplus := by
  simp only [redeemSurplusOps, List.mem_flatMap] at h
  obtain ⟨e, -, hmem⟩ := h
  split at hmem
  · split at hmem
    · split at hmem
      · rw [List.mem_singleton] at hmem
        subst hmem
        rfl
      · simp at hmem
    · simp at hmem
  · simp at hmem

/-- shouldFillDeficit only returns true when the net allowance is strictly
positive. -/
theorem shouldFillDeficit_netAllowance_pos {config : RebalancerConfig}
    {st : RebalancerState} {networkName : String} {data : PoolData}
    (h : shouldFillDeficit config st networkName data = true) :
    0 < netAllowance config st := by
  unfold shouldFillDeficit at h
  split at h
  · exact absurd h (by simp)
  · split at h
    · exact absurd h (by simp)
    · split at h
      · exact absurd h (by simp)
      · split at h
        · exact absurd h (by simp)
        · omega

/-- Membership in the fillDeficit segment forces the source-side data:
a poolData entry, a present balance, and amount = min(usdc, deficit). -/
theorem mem_fillDeficitOps {config : RebalancerConfig} {st : RebalancerState}
    {o : RebalanceOpportunity} (h : o ∈ fillDeficitOps config st) :
    ∃ e ∈ st.poolData, shouldFillDeficit config st e.1 e.2 = true ∧
      ∃ b, BalanceManager.getBalance st.balances e.1 = some b ∧
        o.toNetwork = e.1 ∧
        o.amount = (if b.usdc < e.2.deficit then b.usdc else e.2.deficit) := by
  simp only [fillDeficitOps, List.mem_flatMap] at h
  obtain ⟨e, he, hmem⟩ := h
  split at hmem
  · rename_i hShould
    split at hmem
    · rename_i b hb
      rw [List.mem_singleton] at hmem
      subst hmem
      exact ⟨e, he, hShould, b, hb, rfl, rfl⟩
    · simp at hmem
  · simp at hmem

end Rebalancer

/-- Scenario of claim C1 (spec scenario 2, net exposure binds): one network
a with deficit 1000000, USDC balance 5000000 and NET_TOTAL_ALLOWANCE
400000, no IOU anywhere. -/
def sc1Config : Rebalancer.RebalancerConfig :=
  { deficitThreshold := 10, surplusThreshold := 10, netTotalAllowance := 400000 }

/-- The pool and balance state of the C1 scenario. -/
def sc1State : Rebalancer.RebalancerState :=
  { poolData := [("a", { deficit := 1000000, surplus := 0 })],
    balances := [("a", { native := 1, usdc := 5000000, iou := 0 })],
    totalRedeemedUsdc := 0 }

/-- Exhausted-net-allowance state used by the C1 witness: total IOU equals
the allowance, and a surplus redemption is still discovered. -/
def c1wConfig : Rebalancer.RebalancerConfig :=
  { deficitThreshold := 10, surplusThreshold := 10, netTotalAllowance := 1000000 }

/-- State for the C1 witness: network b holds 1000000 IOU against a pool
surplus of 5000000 and also shows a large deficit with USDC at hand. -/
def c1wState : Rebalancer.RebalancerState :=
  { poolData := [("b", { deficit := 2000000, surplus := 5000000 })],
    balances := [("b", { native := 1, usdc := 50, iou := 1000000 })],
    totalRedeemedUsdc := 0 }

/-- The redeemSurplus opportunity discovered in the C1 witness state. -/
def c1wOp : Rebalancer.RebalanceOpportunity :=
  { type := .redeemSurplus, fromNetwork := none, toNetwork := "b", amount := 1000000 }

/-- C1: when the net allowance is exhausted no fillDeficit opportunity is in
the batch, and every emitted fillDeficit was produced under a strictly
positive net allowance with amount = min(USDC(to), deficit(to)) taken from
the pool entry and the balance entry of its target network; the amount is
not additionally capped by the net allowance. -/
theorem c1_fillDeficit_netAllowance (config : Rebalancer.RebalancerConfig)
    (st : Rebalancer.RebalancerState) :
    (Rebalancer.netAllowance config st ≤ 0 →
      ∀ o ∈ Rebalancer.checkRebalancingOpportunities config st,
        o.type ≠ Rebalancer.OpportunityType.fillDeficit) ∧
    (∀ o ∈ Rebalancer.checkRebalancingOpportunities config st,
      o.type = Rebalancer.OpportunityType.fillDeficit →
      0 < Rebalancer.netAllowance config st ∧
      ∃ e ∈ st.poolData, ∃ b, BalanceManager.getBalance st.balances e.1 = some b ∧
        o.toNetwork = e.1 ∧
        o.amount = (if b.usdc < e.2.deficit then b.usdc else e.2.deficit)) := by
  have hsplit : ∀ o ∈ Rebalancer.checkRebalancingOpportunities config st,
      o.type = Rebalancer.OpportunityType.fillDeficit →
      o ∈ Rebalancer.fillDeficitOps config st := by
    intro o ho htype
    unfold Rebalancer.checkRebalancingOpportunities at ho
    rcases List.mem_append.1 ho with h1 | h2
    · rcases List.mem_append.1 h1 with ha | hb
      · exact ha
      · exact absurd (Rebalancer.checkIOUBridgingOpportunities_type hb)
          (by rw [htype]; intro hc; cases hc)
    · exact absurd (Rebalancer.redeemSurplusOps_type h2)
        (by rw [htype]; intro hc; cases hc)
  constructor
  · intro hneg o ho htype
    obtain ⟨e, -, hShould, -⟩ := Rebalancer.mem_fillDeficitOps (hsplit o ho htype)
    have := Rebalancer.shouldFillDeficit_netAllowance_pos hShould
    omega
  · intro o ho htype
    obtain ⟨e, he, hShould, b, hb, hto, hamount⟩ :=
      Rebalancer.mem_fillDeficitOps (hsplit o ho htype)
    exact ⟨Rebalancer.shouldFillDeficit_netAllowance_pos hShould,
      e, he, b, hb, hto, hamount⟩

/-- C1 counterexample: in the spec scenario with NET_TOTAL_ALLOWANCE 400000
and net allowance 400000, the emitted fillDeficit amount is 1000000: the
claimed cap amount ≤ max(0, net allowance) = 400000 is violated. -/
theorem c1_counterexample :
    Rebalancer.checkRebalancingOpportunities sc1Config sc1State =
      [{ type := .fillDeficit, fromNetwork := none, toNetwork := "a", amount := 1000000 }] ∧
    Rebalancer.netAllowance sc1Config sc1State = 400000 ∧
    ¬ (1000000 : Int) ≤ max 0 (Rebalancer.netAllowance sc1Config sc1State) := by
  refine ⟨by decide, by decide, by decide⟩

/-- C1 witness: a concrete exhausted-allowance state in which the discovered
batch still contains an opportunity, and that opportunity is not a
fillDeficit. -/
theorem c1_witness :
    Rebalancer.netAllowance c1wConfig c1wState ≤ 0 ∧
    c1wOp ∈ Rebalancer.checkRebalancingOpportunities c1wConfig c1wState ∧
    c1wOp.type ≠ Rebalancer.OpportunityType.fillDeficit :=
  ⟨by decide, by decide,
    (c1_fillDeficit_netAllowance c1wConfig c1wState).1 (by decide) c1wOp (by decide)⟩

namespace Rebalancer

/-- The position of each opportunity type in the batch built by
checkRebalancingOpportunities: fillDeficit first, then bridgeIOU, then
redeemSurplus. -/
def typeRank : OpportunityType → Nat
  | .fillDeficit => 0
  | .bridgeIOU => 1
  | .redeemSurplus => 2

end Rebalancer

/-- Scenario 4 of the spec (surplus redemption priority): networks a and b,
pool b in surplus 5000000, IOU 2000000 on a and 1000000 on b, no USDC,
native gas everywhere. -/
def sc4Config : Rebalancer.RebalancerConfig :=
  { deficitThreshold := 10, surplusThreshold := 10, netTotalAllowance := 10000000 }

/-- The pool and balance state of spec scenario 4. -/
def sc4State : Rebalancer.RebalancerState :=
  { poolData := [("a", { deficit := 0, surplus := 0 }),
                 ("b", { deficit := 0, surplus := 5000000 })],
    balances := [("a", { native := 1, usdc := 0, iou := 2000000 }),
                 ("b", { native := 1, usdc := 0, iou := 1000000 })],
    totalRedeemedUsdc := 0 }

/-- C2: the batch is executed in list order, and that order is discovery
order by opportunity type: every fillDeficit before every bridgeIOU before
every redeemSurplus.  No score is computed anywhere on this path, so a
surplus redemption never precedes a bridge of the same batch. -/
theorem c2_executionOrder (config : Rebalancer.RebalancerConfig)
    (st : Rebalancer.RebalancerState) :
    (Rebalancer.checkRebalancingOpportunities config st).Pairwise
      (fun a b => Rebalancer.typeRank a.type ≤ Rebalancer.typeRank b.type) := by
  unfold Rebalancer.checkRebalancingOpportunities
  rw [List.pairwise_append]
  refine ⟨?_, ?_, ?_⟩
  · rw [List.pairwise_append]
    refine ⟨?_, ?_, ?_⟩
    · exact List.pairwise_of_forall_mem_list fun a ha b hb => by
        rw [Rebalancer.fillDeficitOps_type ha, Rebalancer.fillDeficitOps_type hb]
    · exact List.pairwise_of_forall_mem_list fun a ha b hb => by
        rw [Rebalancer.checkIOUBridgingOpportunities_type ha,
          Rebalancer.checkIOUBridgingOpportunities_type hb]
    · intro a ha b hb
      rw [Rebalancer.fillDeficitOps_type ha,
        Rebalancer.checkIOUBridgingOpportunities_type hb]
      exact Nat.zero_le 1
  · exact List.pairwise_of_forall_mem_list fun a ha b hb => by
      rw [Rebalancer.redeemSurplusOps_type ha, Rebalancer.redeemSurplusOps_type hb]
  · intro a ha b hb
    rw [Rebalancer.redeemSurplusOps_type hb]
    rcases List.mem_append.1 ha with h1 | h2
    · rw [Rebalancer.fillDeficitOps_type h1]
      exact Nat.zero_le 2
    · rw [Rebalancer.checkIOUBridgingOpportunities_type h2]
      exact Nat.le_succ 1

/-- C2 counterexample: in spec scenario 4 the computed batch puts the
bridgeIOU from a to b FIRST and the surplus redemption on b after it, so
the surplus redemption is not executed before the bridge as the claim
requires. -/
theorem c2_counterexample :
    Rebalancer.checkRebalancingOpportunities sc4Config sc4State =
      [{ type := .bridgeIOU, fromNetwork := some "a", toNetwork := "b", amount := 2000000 },
       { type := .redeemSurplus, fromNetwork := none, toNetwork := "b", amount := 1000000 }] := by
  decide

namespace LancaNetworkManager

/-- Logical reading of keepNetwork: a pool deployment must exist; with a
present non-empty whitelist only whitelist membership is consulted (the
blacklist is skipped); otherwise blacklist membership excludes. -/
theorem keepNetwork_iff (pools : List (String × String))
    (config : LancaNetworkManagerConfig) (n : ConceroNetwork) :
    keepNetwork pools config n = true ↔
      (mapGet pools n.name).isSome = true ∧
        (match config.whitelistedNetworkIds with
         | some whitelist =>
           if whitelist.length > 0 then n.id ∈ whitelist
           else
             match config.blacklistedNetworkIds with
             | some blacklist => n.id ∉ blacklist
             | none => True
         | none =>
           match config.blacklistedNetworkIds with
           | some blacklist => n.id ∉ blacklist
           | none => True) := by
  unfold keepNetwork
  cases hp : mapGet pools n.name with
  | none => simp
  | some a =>
    cases hw : config.whitelistedNetworkIds with
    | none =>
      cases hb : config.blacklistedNetworkIds with
      | none => simp
      | some blacklist => simp [List.contains, List.elem_iff]
    | some whitelist =>
      by_cases hlen : whitelist.length > 0
      · simp [hlen, List.contains, List.elem_iff]
      · cases hb : config.blacklistedNetworkIds with
        | none => simp [hlen]
        | some blacklist => simp [hlen, List.contains, List.elem_iff]

end LancaNetworkManager

/-- C3: after a successful refresh a candidate network is active iff a pool
deployment exists for it AND, when a non-empty whitelist is configured, its
chain id is whitelisted (the blacklist is then not consulted), otherwise
its chain id is not blacklisted.  The parent pool network receives no
special treatment by this filter. -/
theorem c3_activeNetworkFilter (candidates : List LancaNetworkManager.ConceroNetwork)
    (pools : List (String × String))
    (config : LancaNetworkManager.LancaNetworkManagerConfig)
    (n : LancaNetworkManager.ConceroNetwork) :
    n ∈ LancaNetworkManager.updateActiveNetworks candidates pools config ↔
      n ∈ candidates ∧ (mapGet pools n.name).isSome = true ∧
        (match config.whitelistedNetworkIds with
         | some whitelist =>
           if whitelist.length > 0 then n.id ∈ whitelist
           else
             match config.blacklistedNetworkIds with
             | some blacklist => n.id ∉ blacklist
             | none => True
         | none =>
           match config.blacklistedNetworkIds with
           | some blacklist => n.id ∉ blacklist
           | none => True) := by
  unfold LancaNetworkManager.updateActiveNetworks
  rw [List.mem_filter, LancaNetworkManager.keepNetwork_iff]

/-- The candidate network of the C3 counterexample. -/
def c3Net : LancaNetworkManager.ConceroNetwork := { name := "a", id := 1 }

/-- A pool map giving the C3 network a deployment. -/
def c3Pools : List (String × String) := [("a", "0xdeadbeef")]

/-- A configuration whitelisting AND blacklisting chain id 1. -/
def c3Config : LancaNetworkManager.LancaNetworkManagerConfig :=
  { whitelistedNetworkIds := some [1], blacklistedNetworkIds := some [1] }

/-- C3 counterexample: with chain id 1 both whitelisted and blacklisted the
network stays in the active set, because the non-empty whitelist branch
returns without ever consulting the blacklist; the claim says a blacklisted
chain id is never active. -/
theorem c3_counterexample :
    c3Net ∈ LancaNetworkManager.updateActiveNetworks [c3Net] c3Pools c3Config ∧
    c3Config.blacklistedNetworkIds = some [1] ∧ c3Net.id ∈ [(1 : Int)] := by
  refine ⟨by decide, by decide, by decide⟩


namespace Rebalancer

/-- Closed form of the Rebalancer ensureAllowance approve decision. -/
theorem rebEnsureAllowanceApprove_char (currentAllowance requiredAmount minAllowance : Int) :
    ensureAllowanceApprove currentAllowance requiredAmount minAllowance =
      if requiredAmount ≤ currentAllowance then none
      else some (max requiredAmount minAllowance) := by
  unfold ensureAllowanceApprove
  split_ifs <;> first
    | rfl
    | (exfalso; omega)
    | (rw [Option.some_inj]; omega)

end Rebalancer

namespace BalanceManagerBase

/-- Closed form of the base BalanceManager ensureAllowance approve decision:
no-op exactly when the current allowance covers max(required, floor), and
otherwise one approve for max(required, floor). -/
theorem baseEnsureAllowanceApprove_char (minAllowances : List (String × List (String × Int)))
    (networkName tokenAddress : String) (currentAllowance requiredAmount : Int) :
    ensureAllowanceApprove minAllowances networkName tokenAddress
        currentAllowance requiredAmount =
      if max requiredAmount (getMinAllowance minAllowances networkName tokenAddress)
          ≤ currentAllowance then none
      else some (max requiredAmount (getMinAllowance minAllowances networkName tokenAddress)) := by
  simp only [ensureAllowanceApprove]
  split_ifs <;> first
    | rfl
    | (exfalso; omega)
    | (rw [Option.some_inj]; omega)

end BalanceManagerBase

/-- The floor map used by the C4 counterexample and witness: network n maps
the lower-cased token address 0xt to a floor of 10. -/
def c4MinAllowances : List (String × List (String × Int)) := [("n", [("0xt", 10)])]

/-- C4: the two ensureAllowance implementations decide approvals as follows.
The Rebalancer variant is a no-op exactly when the current allowance covers
the requirement, and otherwise approves max(required, minAllowance).  The
base BalanceManager variant is a no-op exactly when the current allowance
covers max(required, floor), and otherwise approves max(required, floor),
so it can approve even when the current allowance covers the requirement.
Neither variant ever submits an approve at or below the current allowance. -/
theorem c4_ensureAllowance (minAllowances : List (String × List (String × Int)))
    (networkName tokenAddress : String) (currentAllowance requiredAmount minAllowance : Int) :
    (Rebalancer.ensureAllowanceApprove currentAllowance requiredAmount minAllowance = none ↔
      requiredAmount ≤ currentAllowance) ∧
    (currentAllowance < requiredAmount →
      Rebalancer.ensureAllowanceApprove currentAllowance requiredAmount minAllowance =
        some (max requiredAmount minAllowance)) ∧
    (BalanceManagerBase.ensureAllowanceApprove minAllowances networkName tokenAddress
        currentAllowance requiredAmount = none ↔
      max requiredAmount (BalanceManagerBase.getMinAllowance minAllowances networkName tokenAddress)
        ≤ currentAllowance) ∧
    (∀ v, BalanceManagerBase.ensureAllowanceApprove minAllowances networkName tokenAddress
        currentAllowance requiredAmount = some v →
      v = max requiredAmount
          (BalanceManagerBase.getMinAllowance minAllowances networkName tokenAddress) ∧
        currentAllowance < v) ∧
    (∀ v, Rebalancer.ensureAllowanceApprove currentAllowance requiredAmount minAllowance = some v →
      currentAllowance < v) := by
  rw [Rebalancer.rebEnsureAllowanceApprove_char, BalanceManagerBase.baseEnsureAllowanceApprove_char]
  refine ⟨?_, ?_, ?_, ?_, ?_⟩
  · split_ifs with h <;> simp [h]
  · intro h
    split_ifs with h1
    · exfalso; omega
    · rfl
  · split_ifs with h <;> simp [h]
  · intro v
    split_ifs with h
    · intro hv; exact absurd hv (by simp)
    · intro hv
      rw [Option.some_inj] at hv
      omega
  · intro v
    split_ifs with h
    · intro hv; exact absurd hv (by simp)
    · intro hv
      rw [Option.some_inj] at hv
      omega

/-- C4 counterexample: with current allowance 5 already covering the
requirement 3, the base BalanceManager ensureAllowance still submits an
approve (raising to the floor 10), contradicting the claimed no-op. -/
theorem c4_counterexample :
    BalanceManagerBase.ensureAllowanceApprove c4MinAllowances "n" "0xT" 5 3 = some 10 ∧
    (3 : Int) ≤ 5 := by
  refine ⟨by decide, by decide⟩

/-- C4 witness: concrete evaluations of the amended characterization at
current allowance 5, required 12, floor 10. -/
theorem c4_witness :
    (5 : Int) < 12 ∧
    Rebalancer.ensureAllowanceApprove 5 12 10 = some (max 12 10) ∧
    ((10 : Int) = max 3 (BalanceManagerBase.getMinAllowance c4MinAllowances "n" "0xT") ∧
      (5 : Int) < 10) :=
  ⟨by decide,
    (c4_ensureAllowance c4MinAllowances "n" "0xT" 5 12 10).2.1 (by decide),
    (c4_ensureAllowance c4MinAllowances "n" "0xT" 5 3 10).2.2.2.1 10 (by decide)⟩

namespace Rebalancer

/-- Folding entries that are all below the target surplus (or below the
threshold) keeps the running highest below the target. -/
theorem bestSurplusStep_fold_lt (config : RebalancerConfig) (s : Int) :
    ∀ (l : List (String × PoolData)) (acc : Option String × Int),
      acc.2 < s →
      (∀ e ∈ l, e.2.surplus < s ∨ e.2.surplus < config.surplusThreshold) →
      (l.foldl (bestSurplusStep config) acc).2 < s := by
  intro l
  induction l with
  | nil => intro acc hacc _; exact hacc
  | cons e t ih =>
    intro acc hacc hl
    rw [List.foldl_cons]
    refine ih _ ?_ fun x hx => hl x (List.mem_cons_of_mem e hx)
    unfold bestSurplusStep
    split_ifs with h
    · rcases hl e (List.mem_cons_self e t) with hlt | hlt
      · exact hlt
      · exact absurd h.2 (by omega)
    · exact hacc

/-- Folding entries that never beat the accumulator (at or below the
running highest, or below the threshold) leaves the accumulator unchanged. -/
theorem bestSurplusStep_fold_fix (config : RebalancerConfig) :
    ∀ (l : List (String × PoolData)) (acc : Option String × Int),
      (∀ e ∈ l, e.2.surplus ≤ acc.2 ∨ e.2.surplus < config.surplusThreshold) →
      l.foldl (bestSurplusStep config) acc = acc := by
  intro l
  induction l with
  | nil => intro acc _; rfl
  | cons e t ih =>
    intro acc hl
    rw [List.foldl_cons]
    have hstep : bestSurplusStep config acc e = acc := by
      unfold bestSurplusStep
      split_ifs with h
      · rcases hl e (List.mem_cons_self e t) with hle | hlt
        · exact absurd h.1 (by omega)
        · exact absurd h.2 (by omega)
      · rfl
    rw [hstep]
    exact ih acc fun x hx => hl x (List.mem_cons_of_mem e hx)

/-- Every bridge opportunity targets the network chosen by the
best-surplus scan over the poolData map. -/
theorem bridging_toNetwork {config : RebalancerConfig} {st : RebalancerState}
    {o : RebalanceOpportunity} (h : o ∈ checkIOUBridgingOpportunities config st) :
    (findBestSurplus config st.poolData).1 = some o.toNetwork := by
  simp only [checkIOUBridgingOpportunities] at h
  split at h
  · simp at h
  · split at h
    · simp at h
    · rename_i hbest
      split at h
      · simp at h
      · rw [List.mem_flatMap] at h
        obtain ⟨f, -, hmem⟩ := h
        split at hmem
        · simp at hmem
        · split at hmem
          · simp at hmem
          · rw [List.mem_singleton] at hmem
            subst hmem
            rw [hbest]

end Rebalancer

/-- The config of the C5 scenario: surplus threshold 10. -/
def sc5Config : Rebalancer.RebalancerConfig :=
  { deficitThreshold := 10, surplusThreshold := 10, netTotalAllowance := 10000000 }

/-- The state of the C5 scenario: networks c and b tied at surplus 5000000
(c first in map insertion order), 1000 IOU on a. -/
def sc5State : Rebalancer.RebalancerState :=
  { poolData := [("c", { deficit := 0, surplus := 5000000 }),
                 ("b", { deficit := 0, surplus := 5000000 })],
    balances := [("a", { native := 1, usdc := 0, iou := 1000 })],
    totalRedeemedUsdc := 0 }

/-- C5: the chosen bridge destination is the first entry, in poolData map
iteration (insertion) order, whose surplus meets the threshold, is
positive, strictly exceeds every earlier qualifying surplus, and is not
exceeded by any later qualifying surplus; a tie is therefore broken by
insertion order, and every emitted bridge opportunity targets exactly this
network. -/
theorem c5_bestSurplus_firstMax (config : Rebalancer.RebalancerConfig)
    (st : Rebalancer.RebalancerState) (pre post : List (String × Rebalancer.PoolData))
    (d : String) (pd : Rebalancer.PoolData)
    (hsplit : st.poolData = pre ++ (d, pd) :: post)
    (hthr : pd.surplus ≥ config.surplusThreshold)
    (hpos : 0 < pd.surplus)
    (hpre : ∀ e ∈ pre, e.2.surplus < pd.surplus ∨ e.2.surplus < config.surplusThreshold)
    (hpost : ∀ e ∈ post, e.2.surplus ≤ pd.surplus ∨ e.2.surplus < config.surplusThreshold) :
    Rebalancer.findBestSurplus config st.poolData = (some d, pd.surplus) ∧
    ∀ o ∈ Rebalancer.checkIOUBridgingOpportunities config st, o.toNetwork = d := by
  have hbest : Rebalancer.findBestSurplus config st.poolData = (some d, pd.surplus) := by
    rw [hsplit]
    unfold Rebalancer.findBestSurplus
    rw [List.foldl_append, List.foldl_cons]
    have hlow := Rebalancer.bestSurplusStep_fold_lt config pd.surplus pre (none, 0) hpos hpre
    have hstep : Rebalancer.bestSurplusStep config
        (pre.foldl (Rebalancer.bestSurplusStep config) (none, 0)) (d, pd) =
        (some d, pd.surplus) := by
      unfold Rebalancer.bestSurplusStep
      rw [if_pos ⟨hlow, hthr⟩]
    rw [hstep]
    exact Rebalancer.bestSurplusStep_fold_fix config post (some d, pd.surplus) hpost
  refine ⟨hbest, fun o ho => ?_⟩
  have := Rebalancer.bridging_toNetwork ho
  rw [hbest] at this
  exact (Option.some_inj.1 this).symm

/-- C5 counterexample: with networks c and b tied at a qualifying surplus
and c first in insertion order, the bridge destination is c, not the
lexicographically smallest name b that the claim requires. -/
theorem c5_counterexample :
    Rebalancer.checkIOUBridgingOpportunities sc5Config sc5State =
      [{ type := .bridgeIOU, fromNetwork := some "a", toNetwork := "c", amount := 1000 }] ∧
    ("c" : String) ≠ "b" := by
  refine ⟨by decide, by decide⟩

/-- Deficit-free pool entry at surplus 3, before the chosen entry in the C5
witness. -/
def c5wPre : List (String × Rebalancer.PoolData) := [("x", { deficit := 0, surplus := 3 })]

/-- Pool entry tied with the chosen entry, after it in insertion order, in
the C5 witness. -/
def c5wPost : List (String × Rebalancer.PoolData) := [("b", { deficit := 0, surplus := 5 })]

/-- The chosen pool data of the C5 witness. -/
def c5wPd : Rebalancer.PoolData := { deficit := 0, surplus := 5 }

/-- The state of the C5 witness scan. -/
def c5wState : Rebalancer.RebalancerState :=
  { poolData := c5wPre ++ ("c", c5wPd) :: c5wPost,
    balances := [],
    totalRedeemedUsdc := 0 }

/-- The config of the C5 witness scan: surplus threshold 1. -/
def c5wConfig : Rebalancer.RebalancerConfig :=
  { deficitThreshold := 1, surplusThreshold := 1, netTotalAllowance := 100 }

/-- C5 witness: on a concrete tie (c at 5 before b at 5, threshold 1) the
scan returns c with highest surplus 5. -/
theorem c5_witness :
    Rebalancer.findBestSurplus c5wConfig c5wState.poolData = (some "c", c5wPd.surplus) :=
  (c5_bestSurplus_firstMax c5wConfig c5wState c5wPre c5wPost "c" c5wPd rfl
    (by decide) (by decide) (by decide) (by decide)).1

namespace DeploymentManager

/-- The pool loop never touches the token maps. -/
theorem foldl_parsePoolStep_tokens :
    ∀ (l : List DeploymentEntry) (acc : LancaDeployments × Bool),
      (l.foldl parsePoolStep acc).1.usdcTokens = acc.1.usdcTokens ∧
      (l.foldl parsePoolStep acc).1.iouTokens = acc.1.iouTokens := by
  intro l
  induction l with
  | nil => intro acc; exact ⟨rfl, rfl⟩
  | cons e t ih =>
    intro acc
    rw [List.foldl_cons]
    refine ⟨?_, ?_⟩
    · rw [(ih (parsePoolStep acc e)).1]
      unfold parsePoolStep
      split_ifs <;> rfl
    · rw [(ih (parsePoolStep acc e)).2]
      unfold parsePoolStep
      split_ifs <;> rfl

/-- The token loop never touches parentPool. -/
theorem foldl_parseTokenStep_parentPool :
    ∀ (l : List DeploymentEntry) (d : LancaDeployments),
      (l.foldl parseTokenStep d).parentPool = d.parentPool := by
  intro l
  induction l with
  | nil => intro d; rfl
  | cons e t ih =>
    intro d
    rw [List.foldl_cons, ih (parseTokenStep d e)]
    unfold parseTokenStep
    split_ifs <;> rfl

/-- Relation between the pool-loop accumulator and the last PARENT_POOL
entry processed so far: after a parent entry the flag is set and parentPool
holds that entry, before any parent entry the flag is clear and parentPool
still holds the previous snapshot value. -/
def parentTracks (acc : LancaDeployments × Bool) (la : Option DeploymentEntry)
    (pp : String × String) : Prop :=
  match la with
  | some e => acc.1.parentPool = (e.networkName, e.value) ∧ acc.2 = true
  | none => acc.1.parentPool = pp ∧ acc.2 = false

/-- The pool loop maintains parentTracks along lastParentAux. -/
theorem parentTracks_fold :
    ∀ (l : List DeploymentEntry) (acc : LancaDeployments × Bool)
      (la : Option DeploymentEntry) (pp : String × String),
      parentTracks acc la pp →
      parentTracks (l.foldl parsePoolStep acc) (lastParentAux la l) pp := by
  intro l
  induction l with
  | nil => intro acc la pp h; exact h
  | cons e t ih =>
    intro acc la pp h
    rw [List.foldl_cons]
    show parentTracks (t.foldl parsePoolStep (parsePoolStep acc e))
      (lastParentAux (if strIncludes e.key "PARENT_POOL" then some e else la) t) pp
    apply ih
    unfold parsePoolStep
    split_ifs with h1 h2
    · exact ⟨rfl, rfl⟩
    · cases la with
      | none => exact ⟨h.1, h.2⟩
      | some x => exact ⟨h.1, h.2⟩
    · exact h

/-- Without parent entries lastParentAux stays empty. -/
theorem lastParentAux_none :
    ∀ (l : List DeploymentEntry),
      (∀ e ∈ l, strIncludes e.key "PARENT_POOL" = false) →
      lastParentAux none l = none := by
  intro l
  induction l with
  | nil => intro _; rfl
  | cons e t ih =>
    intro h
    show lastParentAux (if strIncludes e.key "PARENT_POOL" then some e else none) t = none
    rw [h e (List.mem_cons_self e t), if_neg (by simp)]
    exact ih fun x hx => h x (List.mem_cons_of_mem e hx)

end DeploymentManager

/-- The previous deployments snapshot of the C6 scenario. -/
def c6Old : DeploymentManager.LancaDeployments :=
  { pools := [("x", "0xa")], parentPool := ("p", "0xp"),
    usdcTokens := [("x", "0xu")], iouTokens := [] }

/-- A fetched pool manifest with one child pool and no parent pool. -/
def c6PoolEntries : List DeploymentManager.DeploymentEntry :=
  [{ key := "LBF_CHILD_POOL_Y", value := "0xb", networkName := "y" }]

/-- C6: a manifest FETCH failure leaves the snapshot untouched, but a PARSE
failure (no parent pool among the fetched pool entries) leaves the
in-place-mutated state: the flag is false, parentPool keeps its old value,
and the two token maps have been reset to empty (the old pools are likewise
replaced by the newly parsed ones). -/
theorem c6_snapshotOnFailure (old : DeploymentManager.LancaDeployments) :
    DeploymentManager.updateDeployments old (.error ()) = (old, false) ∧
    (∀ poolDeployments tokenDeployments,
      (∀ e ∈ poolDeployments, strIncludes e.key "PARENT_POOL" = false) →
      (DeploymentManager.updateDeployments old (.ok (poolDeployments, tokenDeployments))).2
          = false ∧
      (DeploymentManager.updateDeployments old
          (.ok (poolDeployments, tokenDeployments))).1.parentPool = old.parentPool ∧
      (DeploymentManager.updateDeployments old
          (.ok (poolDeployments, tokenDeployments))).1.usdcTokens = [] ∧
      (DeploymentManager.updateDeployments old
          (.ok (poolDeployments, tokenDeployments))).1.iouTokens = []) := by
  refine ⟨rfl, fun poolDeployments tokenDeployments hnp => ?_⟩
  have h0 : DeploymentManager.parentTracks
      ({ old with pools := [], usdcTokens := [], iouTokens := [] }, false) none
      old.parentPool := ⟨rfl, rfl⟩
  have hfold := DeploymentManager.parentTracks_fold poolDeployments _ none old.parentPool h0
  rw [DeploymentManager.lastParentAux_none poolDeployments hnp] at hfold
  have htok := DeploymentManager.foldl_parsePoolStep_tokens poolDeployments
    ({ old with pools := [], usdcTokens := [], iouTokens := [] }, false)
  simp only [DeploymentManager.updateDeployments, DeploymentManager.parseDeployments]
  rw [if_neg (by rw [hfold.2]; simp)]
  exact ⟨rfl, hfold.1, htok.1, htok.2⟩

/-- C6 counterexample: a parse failure (missing parent pool) does NOT
retain the previous snapshot: the old pools map and the old usdc map are
replaced by the partially rebuilt state. -/
theorem c6_counterexample :
    DeploymentManager.updateDeployments c6Old (.ok (c6PoolEntries, [])) =
      ({ pools := [("y", "0xb")], parentPool := ("p", "0xp"),
         usdcTokens := [], iouTokens := [] }, false) ∧
    c6Old.usdcTokens = [("x", "0xu")] ∧ c6Old.pools = [("x", "0xa")] := by
  refine ⟨by decide, by decide, by decide⟩

/-- C6 witness: the amended characterization applied at the concrete
parent-free manifest. -/
theorem c6_witness :
    (DeploymentManager.updateDeployments c6Old (.ok (c6PoolEntries, []))).2 = false ∧
    (DeploymentManager.updateDeployments c6Old (.ok (c6PoolEntries, []))).1.usdcTokens = [] :=
  have h := (c6_snapshotOnFailure c6Old).2 c6PoolEntries [] (by decide)
  ⟨h.1, h.2.2.1⟩

/-- A fetched pool manifest with two parent-pool entries. -/
def c7Entries : List DeploymentManager.DeploymentEntry :=
  [{ key := "LBF_PARENT_POOL_A", value := "0x1", networkName := "a" },
   { key := "LBF_PARENT_POOL_B", value := "0x2", networkName := "b" }]

/-- C7: whenever the pool manifest holds at least one PARENT_POOL entry the
parse SUCCEEDS, and the resulting parentPool is the last such entry in
manifest order; duplicates are not detected and raise no error. -/
theorem c7_lastParentWins (old : DeploymentManager.LancaDeployments)
    (poolDeployments tokenDeployments : List DeploymentManager.DeploymentEntry)
    (e : DeploymentManager.DeploymentEntry)
    (hlast : DeploymentManager.lastParentEntry poolDeployments = some e) :
    (DeploymentManager.parseDeployments old poolDeployments tokenDeployments).2 = true ∧
    (DeploymentManager.parseDeployments old poolDeployments tokenDeployments).1.parentPool
      = (e.networkName, e.value) := by
  have h0 : DeploymentManager.parentTracks
      ({ old with pools := [], usdcTokens := [], iouTokens := [] }, false) none
      old.parentPool := ⟨rfl, rfl⟩
  have hfold := DeploymentManager.parentTracks_fold poolDeployments _ none old.parentPool h0
  rw [show DeploymentManager.lastParentAux none poolDeployments
      = DeploymentManager.lastParentEntry poolDeployments from rfl, hlast] at hfold
  simp only [DeploymentManager.parseDeployments]
  rw [if_pos hfold.2]
  exact ⟨rfl,
    (DeploymentManager.foldl_parseTokenStep_parentPool tokenDeployments _).trans hfold.1⟩

/-- C7 counterexample: a manifest with two PARENT_POOL entries parses
successfully (no DuplicateParentPool failure) and keeps the second entry. -/
theorem c7_counterexample :
    DeploymentManager.parseDeployments c6Old c7Entries [] =
      ({ pools := [], parentPool := ("b", "0x2"),
         usdcTokens := [], iouTokens := [] }, true) := by
  decide

/-- C7 witness: the amended characterization applied at the duplicate
manifest. -/
theorem c7_witness :
    (DeploymentManager.parseDeployments c6Old c7Entries []).2 = true ∧
    (DeploymentManager.parseDeployments c6Old c7Entries []).1.parentPool = ("b", "0x2") :=
  c7_lastParentWins c6Old c7Entries []
    { key := "LBF_PARENT_POOL_B", value := "0x2", networkName := "b" } (by decide)

/-- Looking up the key just set returns the value just set. -/
theorem mapGet_mapSet_self {α : Type} :
    ∀ (m : List (String × α)) (k : String) (v : α),
      mapGet (mapSet m k v) k = some v := by
  intro m k v
  induction m with
  | nil => simp [mapSet, mapGet]
  | cons e t ih =>
    unfold mapSet
    split_ifs with h
    · simp [mapGet]
    · unfold mapGet
      rw [if_neg h]
      exact ih

namespace BalanceManagerBase

/-- When every native read fails the native-balance pass is the identity on
the balance map. -/
theorem updateNativeBalances_allFail :
    ∀ (networks : List String) (balances : List (String × TokenBalance))
      (readNative : String → Except Unit Int),
      (∀ n ∈ networks, readNative n = .error ()) →
      updateNativeBalances balances networks readNative = balances := by
  intro networks
  induction networks with
  | nil => intro balances readNative _; rfl
  | cons n t ih =>
    intro balances readNative h
    show List.foldl _ _ (n :: t) = balances
    rw [List.foldl_cons, h n (List.mem_cons_self n t)]
    exact ih balances readNative fun x hx => h x (List.mem_cons_of_mem n hx)

end BalanceManagerBase

/-- The prior balance state of the C8 scenario: network a holds native 7
and 5 units of USDC. -/
def c8State : List (String × BalanceManagerBase.TokenBalance) :=
  [("a", { native := 7, tokens := [("USDC", 5)] })]

/-- Token configuration of the C8 scenario: network a tracks one USDC
token. -/
def c8Configs : String → List BalanceManagerBase.TokenConfig :=
  fun n => if n == "a" then [{ symbol := "USDC", address := "0xusdc" }] else []

/-- A chain read that always fails. -/
def c8ReadFail : String → String → Except Unit Int := fun _ _ => .error ()

/-- C8: a failed NATIVE read leaves the balance map untouched, but a failed
TOKEN balanceOf read does update state: the token balance of the affected
symbol becomes 0 (the native component of the entry is preserved). -/
theorem c8_failedReadEffect :
    (∀ (balances : List (String × BalanceManagerBase.TokenBalance))
       (networks : List String) (readNative : String → Except Unit Int),
      (∀ n ∈ networks, readNative n = .error ()) →
      BalanceManagerBase.updateNativeBalances balances networks readNative = balances) ∧
    (∀ (balances : List (String × BalanceManagerBase.TokenBalance)) (n sym addr : String)
       (readToken : String → String → Except Unit Int),
      readToken n addr = .error () →
      BalanceManagerBase.getTokenBalance
          (BalanceManagerBase.updateTokenBalances balances [n]
            (fun m => if m == n then [{ symbol := sym, address := addr }] else []) readToken)
          n sym = 0 ∧
      BalanceManagerBase.hasNativeBalance
          (BalanceManagerBase.updateTokenBalances balances [n]
            (fun m => if m == n then [{ symbol := sym, address := addr }] else []) readToken)
          n 0 = BalanceManagerBase.hasNativeBalance balances n 0) := by
  refine ⟨fun balances networks readNative h =>
    BalanceManagerBase.updateNativeBalances_allFail networks balances readNative h,
    fun balances n sym addr readToken hread => ?_⟩
  have hupd : BalanceManagerBase.updateTokenBalances balances [n]
      (fun m => if m == n then [{ symbol := sym, address := addr }] else []) readToken =
      mapSet balances n
        { native := match mapGet balances n with
            | some b => b.native
            | none => 0,
          tokens := mapSet (match mapGet balances n with
            | some b => b.tokens
            | none => []) sym 0 } := by
    simp only [BalanceManagerBase.updateTokenBalances, List.foldl_cons, List.foldl_nil,
      beq_self_eq_true, if_true, List.isEmpty_cons, hread]
    rfl
  rw [hupd]
  constructor
  · simp only [BalanceManagerBase.getTokenBalance, mapGet_mapSet_self]
    rfl
  · simp only [BalanceManagerBase.hasNativeBalance, mapGet_mapSet_self]
    cases hb : mapGet balances n with
    | some b => rfl
    | none => rfl

/-- C8 counterexample: network a held 5 USDC; after a failed balanceOf read
the stored USDC balance is 0, not the prior value 5. -/
theorem c8_counterexample :
    BalanceManagerBase.updateTokenBalances c8State ["a"] c8Configs c8ReadFail =
      [("a", { native := 7, tokens := [("USDC", 0)] })] ∧
    BalanceManagerBase.getTokenBalance c8State "a" "USDC" = 5 := by
  refine ⟨by decide, by decide⟩

/-- C8 witness: the amended characterization applied at the concrete failed
read. -/
theorem c8_witness :
    BalanceManagerBase.getTokenBalance
        (BalanceManagerBase.updateTokenBalances c8State ["a"]
          (fun m => if m == "a" then [{ symbol := "USDC", address := "0xusdc" }] else [])
          c8ReadFail)
        "a" "USDC" = 0 ∧
    BalanceManagerBase.hasNativeBalance
        (BalanceManagerBase.updateTokenBalances c8State ["a"]
          (fun m => if m == "a" then [{ symbol := "USDC", address := "0xusdc" }] else [])
          c8ReadFail)
        "a" 0 = BalanceManagerBase.hasNativeBalance c8State "a" 0 :=
  c8_failedReadEffect.2 c8State "a" "USDC" "0xusdc" c8ReadFail rfl

namespace Rebalancer

/-- A fillDeficit-typed member of the batch comes from the fillDeficit
segment. -/
theorem mem_fill_of_type {config : RebalancerConfig} {st : RebalancerState}
    {o : RebalanceOpportunity} (ho : o ∈ checkRebalancingOpportunities config st)
    (htype : o.type = OpportunityType.fillDeficit) :
    o ∈ fillDeficitOps config st := by
  unfold checkRebalancingOpportunities at ho
  rcases List.mem_append.1 ho with h1 | h2
  · rcases List.mem_append.1 h1 with ha | hb
    · exact ha
    · exact absurd (checkIOUBridgingOpportunities_type hb)
        (by rw [htype]; intro hc; cases hc)
  · exact absurd (redeemSurplusOps_type h2)
      (by rw [htype]; intro hc; cases hc)

/-- shouldFillDeficit never passes with a zero USDC balance. -/
theorem shouldFillDeficit_usdc_ne_zero {config : RebalancerConfig}
    {st : RebalancerState} {networkName : String} {data : PoolData}
    {b : BalanceManager.TokenBalance}
    (h : shouldFillDeficit config st networkName data = true)
    (hb : BalanceManager.getBalance st.balances networkName = some b) :
    b.usdc ≠ 0 := by
  simp only [shouldFillDeficit, hb] at h
  split_ifs at h with h1 h2 h3 h4
  all_goals simp_all [beq_iff_eq]

end Rebalancer

/-- C9: discovery thresholds are inclusive and zero balances disqualify.
With a tracked balance, nonzero USDC, positive net allowance and native
gas, a deficit EQUAL to the threshold passes shouldFillDeficit, while a
deficit of threshold - 1 always fails; the same boundary holds for
shouldRedeemSurplus with IOU; and a network whose USDC balance is 0 never
produces a fillDeficit opportunity in the batch, whatever its deficit. -/
theorem c9_boundaries (config : Rebalancer.RebalancerConfig)
    (st : Rebalancer.RebalancerState) (networkName : String)
    (data : Rebalancer.PoolData) (b : BalanceManager.TokenBalance) :
    (BalanceManager.getBalance st.balances networkName = some b → b.usdc ≠ 0 →
      0 < Rebalancer.netAllowance config st →
      BalanceManager.hasNativeBalance st.balances networkName 0 = true →
      data.deficit = config.deficitThreshold →
      Rebalancer.shouldFillDeficit config st networkName data = true) ∧
    (data.deficit = config.deficitThreshold - 1 →
      Rebalancer.shouldFillDeficit config st networkName data = false) ∧
    (BalanceManager.getBalance st.balances networkName = some b → b.iou ≠ 0 →
      BalanceManager.hasNativeBalance st.balances networkName 0 = true →
      data.surplus = config.surplusThreshold →
      Rebalancer.shouldRedeemSurplus config st networkName data = true) ∧
    (data.surplus = config.surplusThreshold - 1 →
      Rebalancer.shouldRedeemSurplus config st networkName data = false) ∧
    (BalanceManager.getBalance st.balances networkName = some b → b.usdc = 0 →
      ∀ o ∈ Rebalancer.checkRebalancingOpportunities config st,
        o.type = Rebalancer.OpportunityType.fillDeficit →
        o.toNetwork ≠ networkName) := by
  refine ⟨?_, ?_, ?_, ?_, ?_⟩
  · intro hb husdc hnet hnative hdef
    simp only [Rebalancer.shouldFillDeficit, hb]
    rw [if_neg (by omega), if_neg (by simp only [beq_iff_eq]; exact husdc),
      if_neg (by omega), if_neg (by simp [hnative])]
  · intro hdef
    simp only [Rebalancer.shouldFillDeficit]
    rw [if_pos (by omega)]
  · intro hb hiou hnative hsur
    simp only [Rebalancer.shouldRedeemSurplus, hb]
    rw [if_neg (by omega), if_neg (by simp only [beq_iff_eq]; exact hiou),
      if_neg (by simp [hnative])]
  · intro hsur
    simp only [Rebalancer.shouldRedeemSurplus]
    rw [if_pos (by omega)]
  · intro hb husdc o ho htype hto
    obtain ⟨e, -, hShould, b', hb', hto', -⟩ :=
      Rebalancer.mem_fillDeficitOps (Rebalancer.mem_fill_of_type ho htype)
    rw [hto] at hto'
    rw [hto'.symm] at hb'
    rw [hb] at hb'
    have hbb : b = b' := Option.some_inj.1 hb'.symm ▸ rfl
    exact Rebalancer.shouldFillDeficit_usdc_ne_zero hShould
      (by rw [← hto', hb]; exact hb') (hbb ▸ husdc)

/-- C9 witness: concrete boundary evaluations at threshold 10. -/
theorem c9_witness :
    Rebalancer.shouldFillDeficit sc1Config sc1State "a"
      { deficit := 10, surplus := 0 } = true ∧
    Rebalancer.shouldFillDeficit sc1Config sc1State "a"
      { deficit := 9, surplus := 0 } = false ∧
    Rebalancer.shouldRedeemSurplus sc4Config sc4State "b"
      { deficit := 0, surplus := 10 } = true ∧
    Rebalancer.shouldRedeemSurplus sc4Config sc4State "b"
      { deficit := 0, surplus := 9 } = false :=
  have h10 := c9_boundaries sc1Config sc1State "a" { deficit := 10, surplus := 0 }
    { native := 1, usdc := 5000000, iou := 0 }
  have h9 := c9_boundaries sc1Config sc1State "a" { deficit := 9, surplus := 0 }
    { native := 1, usdc := 5000000, iou := 0 }
  have hs10 := c9_boundaries sc4Config sc4State "b" { deficit := 0, surplus := 10 }
    { native := 1, usdc := 0, iou := 1000000 }
  have hs9 := c9_boundaries sc4Config sc4State "b" { deficit := 0, surplus := 9 }
    { native := 1, usdc := 0, iou := 1000000 }
  ⟨h10.1 (by decide) (by decide) (by decide) (by decide) rfl,
   h9.2.1 rfl,
   hs10.2.2.1 (by decide) (by decide) (by decide) rfl,
   hs9.2.2.2.1 rfl⟩

/-- C10: every balance query is total on unknown networks: the two
getBalance variants return none, getTokenBalance returns 0, and all the
has-balance queries return false. -/
theorem c10_unknownNetwork (bals : List (String × BalanceManager.TokenBalance))
    (bals5 : List (String × BalanceManagerBase.TokenBalance))
    (name sym : String) (minimumBalance : Int)
    (h : mapGet bals name = none) (h5 : mapGet bals5 name = none) :
    BalanceManager.getBalance bals name = none ∧
    BalanceManagerBase.getBalance bals5 name = none ∧
    BalanceManagerBase.getTokenBalance bals5 name sym = 0 ∧
    BalanceManager.hasNativeBalance bals name minimumBalance = false ∧
    BalanceManager.hasUsdcBalance bals name minimumBalance = false ∧
    BalanceManager.hasIouBalance bals name minimumBalance = false ∧
    BalanceManagerBase.hasNativeBalance bals5 name minimumBalance = false ∧
    BalanceManagerBase.hasTokenBalance bals5 name sym minimumBalance = false := by
  refine ⟨h, h5, ?_, ?_, ?_, ?_, ?_, ?_⟩
  · simp only [BalanceManagerBase.getTokenBalance, h5]
  · simp only [BalanceManager.hasNativeBalance, h]
  · simp only [BalanceManager.hasUsdcBalance, h]
  · simp only [BalanceManager.hasIouBalance, h]
  · simp only [BalanceManagerBase.hasNativeBalance, h5]
  · simp only [BalanceManagerBase.hasTokenBalance, h5]

/-- C10 witness: the query behavior at a network absent from two concrete
balance maps. -/
theorem c10_witness :
    BalanceManager.getBalance [("a", { native := 1, usdc := 2, iou := 3 })] "ghost" = none ∧
    BalanceManagerBase.getTokenBalance c8State "ghost" "USDC" = 0 ∧
    BalanceManager.hasUsdcBalance [("a", { native := 1, usdc := 2, iou := 3 })] "ghost" 0
      = false :=
  have h := c10_unknownNetwork [("a", { native := 1, usdc := 2, iou := 3 })] c8State
    "ghost" "USDC" 0 (by decide) (by decide)
  ⟨h.1, h.2.2.1, h.2.2.2.2.1⟩
